import Mathlib

/-!
Verification development for platform-service-accounts-api.

Shallow embedding of:
  * `platform_service_accounts_api/storage/in_memory.py` (`InMemoryStorage`),
  * `platform_service_accounts_api/service.py` (`AccountsService`),
  * `platform_service_accounts_api/schema.py` (`validate_name` / `NAME_PATTERN`),
  * the method surface of `platform_service_accounts_api/storage/postgres.py`.

The async Python code is single-threaded per call chain, so every operation is
embedded as a pure state-passing function `σ → Except Exc α × σ`; exceptions
become `Except.error`.  Calls made to the external auth gateway are recorded in
a `List AuthCall` log so that frame conditions ("no auth gateway call happens")
can be stated.
-/

/-- Errors raised by the external auth client (`aiohttp.ClientResponseError`
carries an HTTP status and a message; `other` stands for any non-HTTP
exception such as a connection error). -/
inductive AuthErr where
  | clientResponseError (status : Nat) (message : String)
  | other (tag : String)
deriving DecidableEq, Repr

/-- Exceptions observable in the embedded code.  `existsError` /
`notExistsError` are `platform_service_accounts_api.storage.base.ExistsError`
/ `NotExistsError`; `keyError` is the `KeyError` raised by `dict.pop` in
`InMemoryStorage.delete`; `storageError` stands for any other backend failure
(e.g. a lost database connection); `auth e` wraps an auth-client error. -/
inductive Exc where
  | existsError
  | notExistsError
  | keyError
  | storageError (tag : String)
  | auth (e : AuthErr)
deriving DecidableEq, Repr

/-- Modelled from the spec: `storage/base.py` is not under `src/`, so
`ServiceAccountData` is reconstructed from spec §3 ("ServiceAccountData:
name (optional), owner, default_cluster, default_project, default_org
(optional), created_at") together with the constructions visible in
`service.py` (which also passes `role`) and
`tests/unit/test_in_memory_storage.py` (which constructs all seven fields).
`created_at` timestamps are opaque here and modelled as `Nat`. -/
structure ServiceAccountData where
  name : Option String
  owner : String
  role : String
  default_cluster : String
  default_project : Option String := none
  default_org : Option String := none
  created_at : Nat
deriving DecidableEq, Repr

/-- Modelled from the spec: `storage/base.py` is not under `src/`;
spec §3 says a `ServiceAccount` is "all fields of ServiceAccountData, plus
`id`". -/
structure ServiceAccount extends ServiceAccountData where
  id : String
deriving DecidableEq, Repr

/-- Modelled from the spec: `ServiceAccount.from_data_obj(new_id, data)`
(used by both storage backends) pairs the generated id with the data fields
unchanged (spec §8 round-trip property: fields equal the input's fields
except the generated id). -/
def ServiceAccount.from_data_obj (id : String) (data : ServiceAccountData) :
    ServiceAccount :=
  { data with id := id }

/-- State of `InMemoryStorage`: `items` embeds the `dict[str, ServiceAccount]`
(keyed by `account.id`, in insertion order), and `idSupply`/`counter` embed
the stream of random ids produced by `secrets.token_hex(8)` in `_gen_id`. -/
structure InMemState where
  items : List ServiceAccount
  idSupply : Nat → String
  counter : Nat

/-- Dict lookup by key: first item whose `id` equals `id`. -/
def inMemLookup (items : List ServiceAccount) (id : String) :
    Option ServiceAccount :=
  items.find? (fun a => a.id == id)

/-- First item matching `item.name == name and item.owner == owner`
(the scan in `InMemoryStorage.get_by_name`; a stored `name = None` never
equals a `str`). -/
def nameLookup (items : List ServiceAccount) (name owner : String) :
    Option ServiceAccount :=
  items.find? (fun a => a.name == some name && a.owner == owner)

/-- `self._items[new_id] = account`: replace in place when the key is
present (dicts keep the original position), append otherwise. -/
def insertAccount (items : List ServiceAccount) (acc : ServiceAccount) :
    List ServiceAccount :=
  if items.any (fun a => a.id == acc.id) then
    items.map (fun a => if a.id == acc.id then acc else a)
  else
    items ++ [acc]

/-- `InMemoryStorage.get`: raise `NotExistsError` when the id is absent. -/
def InMemoryStorage.get (st : InMemState) (id : String) :
    Except Exc ServiceAccount × InMemState :=
  match inMemLookup st.items id with
  | none => (.error .notExistsError, st)
  | some a => (.ok a, st)

/-- `InMemoryStorage.get_by_name`: scan the values, raise `NotExistsError`
when nothing matches. -/
def InMemoryStorage.get_by_name (st : InMemState) (name owner : String) :
    Except Exc ServiceAccount × InMemState :=
  match nameLookup st.items name owner with
  | none => (.error .notExistsError, st)
  | some a => (.ok a, st)

/-- `InMemoryStorage.check_exists`: nothing to check when `name is None`;
otherwise `get_by_name` must fail with `NotExistsError`, else raise
`ExistsError`. -/
def InMemoryStorage.check_exists (st : InMemState) (data : ServiceAccountData) :
    Except Exc Unit × InMemState :=
  match data.name with
  | none => (.ok (), st)
  | some n =>
    match nameLookup st.items n data.owner with
    | none => (.ok (), st)
    | some _ => (.error .existsError, st)

/-- `InMemoryStorage.create`: `check_exists`, then generate an id and store
`ServiceAccount.from_data_obj(new_id, data)`. -/
def InMemoryStorage.create (st : InMemState) (data : ServiceAccountData) :
    Except Exc ServiceAccount × InMemState :=
  match (InMemoryStorage.check_exists st data).1 with
  | .error e => (.error e, st)
  | .ok _ =>
    let new_id := st.idSupply st.counter
    let account := ServiceAccount.from_data_obj new_id data
    (.ok account,
      { st with items := insertAccount st.items account,
                counter := st.counter + 1 })

/-- `InMemoryStorage.delete`: `self._items.pop(id)` removes the entry, and
raises `KeyError` when the id is absent. -/
def InMemoryStorage.delete (st : InMemState) (id : String) :
    Except Exc Unit × InMemState :=
  if st.items.any (fun a => a.id == id) then
    (.ok (), { st with items := st.items.eraseP (fun a => a.id == id) })
  else
    (.error .keyError, st)

/-- The `Storage` interface of `storage/base.py` (abstract base consumed by
`AccountsService`), as a record of state-passing operations over a backend
state type `σ`. -/
structure StorageOps (σ : Type) where
  create : σ → ServiceAccountData → Except Exc ServiceAccount × σ
  get : σ → String → Except Exc ServiceAccount × σ
  get_by_name : σ → String → String → Except Exc ServiceAccount × σ
  delete : σ → String → Except Exc Unit × σ

/-- The in-memory backend packaged as `StorageOps`. -/
def inMemStorage : StorageOps InMemState where
  create := InMemoryStorage.create
  get := InMemoryStorage.get
  get_by_name := InMemoryStorage.get_by_name
  delete := InMemoryStorage.delete

/-- Method names defined in the class body of `PostgresStorage`
(`storage/postgres.py`), public storage operations only: the class implements
`create`, `get`, `get_by_name` and `list` — and nothing else; in particular
no `delete`. -/
def postgresStorageMethods : List String :=
  ["create", "get", "get_by_name", "list"]

/-! ## UTF-8, base64 and JSON encoding

`AccountsService._encode_token` computes
`base64.b64encode(json.dumps({...}).encode()).decode()`.  `json.dumps` is
embedded at the exact output-string level (default separators `", "` and
`": "`, `ensure_ascii=True`), `str.encode()` as UTF-8 byte encoding, and
`base64.b64encode` as RFC 4648 base64. -/

/-- UTF-8 encoding of one unicode scalar value, as byte values. -/
def utf8EncodeChar (c : Char) : List Nat :=
  let n := c.toNat
  if n < 0x80 then [n]
  else if n < 0x800 then [0xC0 + n / 64, 0x80 + n % 64]
  else if n < 0x10000 then
    [0xE0 + n / 4096, 0x80 + n / 64 % 64, 0x80 + n % 64]
  else
    [0xF0 + n / 262144, 0x80 + n / 4096 % 64, 0x80 + n / 64 % 64,
     0x80 + n % 64]

/-- `s.encode()`: UTF-8 bytes of a string. -/
def utf8Bytes (s : String) : List Nat :=
  (s.data.map utf8EncodeChar).flatten

/-- The base64 alphabet. -/
def base64Char (n : Nat) : Char :=
  "ABCDEFGHIJKLMNOPQRSTUVWXYZabcdefghijklmnopqrstuvwxyz0123456789+/".data.getD
    n '?'

/-- RFC 4648 base64: 3-byte groups become 4 alphabet characters; a final
1- or 2-byte group is padded with `=`. -/
def base64Chunks : List Nat → String
  | [] => ""
  | [b0] =>
    String.mk [base64Char (b0 / 4), base64Char (b0 % 4 * 16), '=', '=']
  | [b0, b1] =>
    String.mk [base64Char (b0 / 4), base64Char (b0 % 4 * 16 + b1 / 16),
      base64Char (b1 % 16 * 4), '=']
  | b0 :: b1 :: b2 :: rest =>
    String.mk [base64Char (b0 / 4), base64Char (b0 % 4 * 16 + b1 / 16),
      base64Char (b1 % 16 * 4 + b2 / 64), base64Char (b2 % 64)]
      ++ base64Chunks rest

/-- `base64.b64encode(bytes).decode()`. -/
def base64encode (bytes : List Nat) : String :=
  base64Chunks bytes

/-- Lower-case hexadecimal digit. -/
def hexDigit (n : Nat) : Char :=
  "0123456789abcdef".data.getD n '?'

/-- A JSON `\uXXXX` escape. -/
def uEscape (n : Nat) : List Char :=
  ['\\', 'u', hexDigit (n / 4096 % 16), hexDigit (n / 256 % 16),
   hexDigit (n / 16 % 16), hexDigit (n % 16)]

/-- Escaping of one character inside a JSON string literal, as produced by
`json.dumps` with its default `ensure_ascii=True`: the two-character escapes
for quote, backslash and common controls, `\uXXXX` for other controls and
all non-ASCII characters (surrogate pairs above U+FFFF). -/
def jsonEscapeChar (c : Char) : List Char :=
  if c = '"' then ['\\', '"']
  else if c = '\\' then ['\\', '\\']
  else if c = '\n' then ['\\', 'n']
  else if c = '\t' then ['\\', 't']
  else if c = '\r' then ['\\', 'r']
  else if c.toNat = 8 then ['\\', 'b']
  else if c.toNat = 12 then ['\\', 'f']
  else if c.toNat < 32 || 127 ≤ c.toNat then
    if c.toNat < 0x10000 then uEscape c.toNat
    else
      uEscape (0xD800 + (c.toNat - 0x10000) / 1024)
        ++ uEscape (0xDC00 + (c.toNat - 0x10000) % 1024)
  else [c]

/-- A JSON string literal for `s`. -/
def jsonStr (s : String) : String :=
  "\"" ++ String.mk (s.data.map jsonEscapeChar).flatten ++ "\""

/-- The comma-separated `"key": value` parts of a serialized JSON object
(`json.dumps` default separators). -/
def jsonDumpsAux : List (String × String) → String
  | [] => ""
  | [kv] => jsonStr kv.1 ++ ": " ++ jsonStr kv.2
  | kv :: rest => jsonStr kv.1 ++ ": " ++ jsonStr kv.2 ++ ", "
      ++ jsonDumpsAux rest

/-- `json.dumps` of an object whose values are strings, at the exact
output-string level. -/
def jsonDumps (pairs : List (String × String)) : String :=
  "\x7b" ++ jsonDumpsAux pairs ++ "\x7d"

/-! ## AccountsService (`service.py`) -/

/-- `AccountCreateData` (`service.py`): the input to
`AccountsService.create`.  The `name` value may be `None` at runtime (the
HTTP schema loads a missing name as `None`), hence `Option String`.  Note
that `role` is a field of the input — supplied by the caller. -/
structure AccountCreateData where
  name : Option String
  default_cluster : String
  role : String
  owner : String
deriving DecidableEq, Repr

/-- `service.py`'s own `ServiceAccount(DBServiceAccount)`: the storage
record plus the `role_deleted` flag.  (Named with a `WithFlag` suffix here
because the storage-level class is already called `ServiceAccount`.) -/
structure ServiceAccountWithFlag extends ServiceAccount where
  role_deleted : Bool
deriving DecidableEq, Repr

/-- `ServiceAccountWithToken` (`service.py`): plus the encoded token. -/
structure ServiceAccountWithToken extends ServiceAccountWithFlag where
  token : String
deriving DecidableEq, Repr

/-- Behaviour of the external `AuthClient` as consumed by the service: each
operation either succeeds or raises an `AuthErr`.  `grant_user_permissions`
takes the role name and the single permission uri the service passes;
`get_user_token` the role name and the `new_token_uri` argument;
`revoke_user_permissions` the role name and the single uri. -/
structure AuthClient where
  grant_user_permissions : String → String → Except AuthErr Unit
  get_user_token : String → String → Except AuthErr String
  get_user : String → Except AuthErr Unit
  revoke_user_permissions : String → String → Except AuthErr Unit

/-- One recorded call to the auth gateway. -/
inductive AuthCall where
  | grant (role uri : String)
  | getToken (role uri : String)
  | getUser (role : String)
  | revoke (role uri : String)
deriving DecidableEq, Repr

/-- `AccountsService._make_token_uri`. -/
def AccountsService.make_token_uri (account_id : String) : String :=
  "token://service_account/" ++ account_id

/-- The key/value pairs of the dict passed to `json.dumps` in
`AccountsService._encode_token`: exactly `token`, `cluster`, `url` (in this
order). -/
def AccountsService.tokenPayload
    (auth_token default_cluster api_base_url : String) :
    List (String × String) :=
  [("token", auth_token), ("cluster", default_cluster),
   ("url", api_base_url)]

/-- `AccountsService._encode_token`. -/
def AccountsService.encode_token
    (api_base_url auth_token default_cluster : String) : String :=
  base64encode (utf8Bytes (jsonDumps
    (AccountsService.tokenPayload auth_token default_cluster api_base_url)))

/-- The `ServiceAccountData(**asdict(data), created_at=now)` constructed at
the top of `AccountsService.create` (the base-class defaults fill
`default_project` / `default_org`). -/
def AccountsService.createData (d : AccountCreateData) (now : Nat) :
    ServiceAccountData :=
  { name := d.name, owner := d.owner, role := d.role,
    default_cluster := d.default_cluster, created_at := now }

/-- `AccountsService.create`: persist via `Storage.create`; then, in a
`try` block, grant the token permission, mint a token and encode it; on any
exception in the `try` block run the compensating `Storage.delete` and
re-raise — in Python an exception raised by the compensating delete itself
replaces the one being handled, so in that case the delete's error is the
one that propagates.  Returns the result, the storage state, and the log of
auth-gateway calls made. -/
def AccountsService.create {σ : Type} (S : StorageOps σ) (ac : AuthClient)
    (api_base_url : String) (now : Nat) (st : σ) (data : AccountCreateData) :
    Except Exc ServiceAccountWithToken × σ × List AuthCall :=
  match S.create st (AccountsService.createData data now) with
  | (.error e, st1) => (.error e, st1, [])
  | (.ok account, st1) =>
    let token_uri := AccountsService.make_token_uri account.id
    match ac.grant_user_permissions data.role token_uri with
    | .error e =>
      match S.delete st1 account.id with
      | (.ok _, st2) => (.error (.auth e), st2, [.grant data.role token_uri])
      | (.error d, st2) => (.error d, st2, [.grant data.role token_uri])
    | .ok _ =>
      match ac.get_user_token data.role token_uri with
      | .error e =>
        match S.delete st1 account.id with
        | (.ok _, st2) => (.error (.auth e), st2,
            [.grant data.role token_uri, .getToken data.role token_uri])
        | (.error d, st2) => (.error d, st2,
            [.grant data.role token_uri, .getToken data.role token_uri])
      | .ok auth_token =>
        let token := AccountsService.encode_token api_base_url auth_token
          account.default_cluster
        (.ok { toServiceAccount := account, role_deleted := false,
               token := token }, st1,
         [.grant data.role token_uri, .getToken data.role token_uri])

/-- `AccountsService._check_role_deleted`: probe `get_user`; success means
the role is alive, a `ClientResponseError` means it was deleted, any other
exception propagates. -/
def AccountsService.check_role_deleted (ac : AuthClient) (role : String) :
    Except Exc Bool × List AuthCall :=
  match ac.get_user role with
  | .ok _ => (.ok false, [.getUser role])
  | .error (.clientResponseError _ _) => (.ok true, [.getUser role])
  | .error e => (.error (.auth e), [.getUser role])

/-- `AccountsService.get`: `Storage.get`, then attach the `role_deleted`
flag computed by probing the auth gateway. -/
def AccountsService.get {σ : Type} (S : StorageOps σ) (ac : AuthClient)
    (st : σ) (id : String) :
    Except Exc ServiceAccountWithFlag × σ × List AuthCall :=
  match S.get st id with
  | (.error e, st1) => (.error e, st1, [])
  | (.ok account, st1) =>
    match AccountsService.check_role_deleted ac account.role with
    | (.ok rd, log) =>
      (.ok { toServiceAccount := account, role_deleted := rd }, st1, log)
    | (.error e, log) => (.error e, st1, log)

/-- `AccountsService.get_by_name`: same as `get` over the name lookup. -/
def AccountsService.get_by_name {σ : Type} (S : StorageOps σ)
    (ac : AuthClient) (st : σ) (name owner : String) :
    Except Exc ServiceAccountWithFlag × σ × List AuthCall :=
  match S.get_by_name st name owner with
  | (.error e, st1) => (.error e, st1, [])
  | (.ok account, st1) =>
    match AccountsService.check_role_deleted ac account.role with
    | (.ok rd, log) =>
      (.ok { toServiceAccount := account, role_deleted := rd }, st1, log)
    | (.error e, log) => (.error e, st1, log)

/-- `AccountsService.delete`: `Storage.get`, then revoke the token
permission, then `Storage.delete`.  The source's `except
ClientResponseError` handler executes `pass` for the 400 "Operation has no
effect" case but then falls through to an unconditional `raise`, so every
revoke failure propagates (and the storage record survives). -/
def AccountsService.delete {σ : Type} (S : StorageOps σ) (ac : AuthClient)
    (st : σ) (id : String) : Except Exc Unit × σ × List AuthCall :=
  match S.get st id with
  | (.error e, st1) => (.error e, st1, [])
  | (.ok account, st1) =>
    let uri := AccountsService.make_token_uri id
    match ac.revoke_user_permissions account.role uri with
    | .error e => (.error (.auth e), st1, [.revoke account.role uri])
    | .ok _ =>
      match S.delete st1 id with
      | (res, st2) => (res, st2, [.revoke account.role uri])

/-! ## Name validation (`schema.py`) -/

/-- `[a-z0-9]`. -/
def isLowerAlnum (c : Char) : Bool :=
  ('a' ≤ c && c ≤ 'z') || ('0' ≤ c && c ≤ '9')

/-- The character class `[-a-z0-9]`. -/
def classChar (c : Char) : Bool :=
  isLowerAlnum c || c == '-'

/-- DFA state for `NAME_PATTERN =
`[a-z0-9](?:[-a-z0-9]*[a-z0-9])?(?:\.[a-z0-9](?:[-a-z0-9]*[a-z0-9])?)*``:
`segStart` expects the first (alphanumeric) character of a segment,
`seenAlnum` is the unique accepting state (segments must end on an
alphanumeric character, after which a `.` starts the next segment),
`seenHyphen` is inside a (possibly repeated) hyphen run. -/
inductive NameSt where
  | segStart
  | seenAlnum
  | seenHyphen
  | reject
deriving DecidableEq, Repr

/-- One transition of the `NAME_PATTERN` DFA. -/
def nameStep (s : NameSt) (c : Char) : NameSt :=
  match s with
  | .segStart => if isLowerAlnum c then .seenAlnum else .reject
  | .seenAlnum =>
    if isLowerAlnum c then .seenAlnum
    else if c = '-' then .seenHyphen
    else if c = '.' then .segStart
    else .reject
  | .seenHyphen =>
    if isLowerAlnum c then .seenAlnum
    else if c = '-' then .seenHyphen
    else .reject
  | .reject => .reject

/-- `NAME_PATTERN.fullmatch(s)`: run the DFA over the whole string and
accept in `seenAlnum`. -/
def nameFullmatch (s : String) : Bool :=
  s.data.foldl nameStep .segStart == .seenAlnum

/-- `validate_name` (`schema.py`): raise
`ValidationError("Invalid service account name")` unless the full string
matches `NAME_PATTERN`. -/
def validate_name (name : String) : Except String Unit :=
  if nameFullmatch name then .ok ()
  else .error "Invalid service account name"

/-- Declarative segment condition realised by the code's per-segment
pattern `[a-z0-9](?:[-a-z0-9]*[a-z0-9])?`: nonempty, first and last
character lowercase alphanumeric, all characters in `[-a-z0-9]`
(consecutive hyphens allowed).  The defaults make the empty list fail. -/
def segOk (s : List Char) : Bool :=
  isLowerAlnum (s.headD '-') && s.all classChar && isLowerAlnum (s.getLastD '-')

/-- Split a character list at every `'.'` (like `str.split(".")`:
`splitOnDot [] = [[]]`, and separators delimit possibly empty segments). -/
def splitOnDot : List Char → List (List Char)
  | [] => [[]]
  | c :: rest =>
    if c = '.' then [] :: splitOnDot rest
    else
      match splitOnDot rest with
      | [] => [[c]]
      | s :: ss => (c :: s) :: ss

/-- Modelled from the spec's claimed pattern: scanner for
`(-[a-z0-9]+)*` — the tail of a segment after its first character.
`afterHyphen` records that the previous character was the `-` opening a
group, which must be followed by at least one `[a-z0-9]`. -/
def specScan : List Char → Bool → Bool
  | [], afterHyphen => !afterHyphen
  | c :: rest, afterHyphen =>
    if c = '-' then !afterHyphen && specScan rest true
    else isLowerAlnum c && specScan rest false

/-- Modelled from the spec's claimed per-segment pattern
`[a-z0-9](-[a-z0-9]+)*`. -/
def specSegMatch : List Char → Bool
  | [] => false
  | c :: rest => isLowerAlnum c && specScan rest false

/-- Modelled from the spec's claimed name pattern: dot-separated segments,
each matching `[a-z0-9](-[a-z0-9]+)*`. -/
def specNameMatch (s : String) : Bool :=
  (splitOnDot s.data).all specSegMatch

/-- Acceptable continuation of a segment right after an alphanumeric
character: either nothing, or characters in `[-a-z0-9]` ending on an
alphanumeric one (the empty default `'a'` makes `tailA [] = true`). -/
def tailA (h : List Char) : Bool :=
  h.all classChar && isLowerAlnum (h.getLastD 'a')

/-- Acceptable continuation right after a hyphen: characters in
`[-a-z0-9]` ending on an alphanumeric one, necessarily nonempty (the
default `'-'` makes `tailH [] = false`). -/
def tailH (h : List Char) : Bool :=
  h.all classChar && isLowerAlnum (h.getLastD '-')

/-! ## Storage invariants and reachability -/

/-- Number of live records carrying the given non-null `(name, owner)`
pair. -/
def countPair (items : List ServiceAccount) (n o : String) : Nat :=
  items.countP (fun a => a.name == some n && a.owner == o)

/-- Spec §3 uniqueness invariant: at most one live record per `(name,
owner)` with non-null name. -/
def UniqueNames (items : List ServiceAccount) : Prop :=
  ∀ n o, countPair items n o ≤ 1

/-- The ids in the store are pairwise distinct (it embeds a `dict` keyed by
id). -/
def IdsNodup (items : List ServiceAccount) : Prop :=
  (items.map (fun a => a.id)).Nodup

/-- Storage states reachable from an empty `InMemoryStorage` by any
sequence of `create` and `delete` calls (with an arbitrary id-generation
stream; failed calls keep the state, which `.2` also covers). -/
inductive Reachable : InMemState → Prop where
  | init (idSupply : Nat → String) : Reachable ⟨[], idSupply, 0⟩
  | step_create (st : InMemState) (d : ServiceAccountData) :
      Reachable st → Reachable (InMemoryStorage.create st d).2
  | step_delete (st : InMemState) (id : String) :
      Reachable st → Reachable (InMemoryStorage.delete st id).2

/-! ## Claim-side token format (C3) -/

/-- The token wire format asserted by the claim: base64 of a serialized
JSON object whose key set is exactly
`{token, cluster, url, project_name}`. -/
def claimTokenFormat (T : String) : Prop :=
  ∃ P : List (String × String),
    (∀ k, k ∈ P.map Prod.fst ↔
       k ∈ (["token", "cluster", "url", "project_name"] : List String))
    ∧ T = base64encode (utf8Bytes (jsonDumps P))

/-! ## Concrete fixtures used by counterexamples and witnesses -/

/-- An auth client whose every operation succeeds. -/
def okAuth : AuthClient where
  grant_user_permissions := fun _ _ => .ok ()
  get_user_token := fun r _ => .ok ("token-" ++ r)
  get_user := fun _ => .ok ()
  revoke_user_permissions := fun _ _ => .ok ()

/-- An empty in-memory storage with a fixed id stream. -/
def emptyState : InMemState where
  items := []
  idSupply := fun _ => "service-account-1"
  counter := 0

/-- A stored record used by several concrete scenarios. -/
def accFixture : ServiceAccount where
  name := some "test"
  owner := "alice"
  role := "alice-role"
  default_cluster := "default"
  created_at := 0
  id := "id1"

/-- A one-record storage state. -/
def oneRecordState : InMemState where
  items := [accFixture]
  idSupply := fun _ => "fresh-id"
  counter := 0

/-- Auth client for the delete scenario of C2: revoking the token
permission reports "Operation has no effect" (already revoked). -/
def authRevokeGone : AuthClient :=
  { okAuth with
    revoke_user_permissions := fun _ _ =>
      .error (.clientResponseError 400 "Operation has no effect") }

/-- Auth client for C3: the gateway mints the literal credential `"t"`. -/
def authMintT : AuthClient :=
  { okAuth with get_user_token := fun _ _ => .ok "t" }

/-- Create input for the C3/C5 scenarios: note the caller-supplied
`role`. -/
def dataFixture : AccountCreateData where
  name := some "test"
  default_cluster := "c"
  role := "whatever"
  owner := "alice"

/-- The token returned by the concrete C3 create call. -/
def tokenC3 : String :=
  match (AccountsService.create inMemStorage authMintT "u" 0 emptyState
      dataFixture).1 with
  | .ok a => a.token
  | .error _ => ""

/-- A storage backend (over a trivial state) whose `delete` always fails —
the C4 scenario where the compensating delete itself errors. -/
def failingDeleteStorage : StorageOps Unit where
  create := fun s d =>
    (.ok (ServiceAccount.from_data_obj "service-account-1" d), s)
  get := fun s _ => (.error .notExistsError, s)
  get_by_name := fun s _ _ => (.error .notExistsError, s)
  delete := fun s _ => (.error (.storageError "delete failed"), s)

/-- Auth client for C4: granting the permission fails. -/
def authGrantFails : AuthClient :=
  { okAuth with
    grant_user_permissions := fun _ _ => .error (.other "grant failed") }


/-! ## Helper lemmas -/

/-- Shape of a successful `AccountsService.create`: storage create, the
grant, and the mint all succeeded, and the result is the stored record plus
the encoded token. -/
lemma create_ok_shape {σ : Type} (S : StorageOps σ) (ac : AuthClient)
    (api : String) (now : Nat) (st : σ) (d : AccountCreateData)
    (a : ServiceAccountWithToken)
    (h : (AccountsService.create S ac api now st d).1 = .ok a) :
    ∃ account st1 tk,
      S.create st (AccountsService.createData d now) = (.ok account, st1)
      ∧ ac.grant_user_permissions d.role
          (AccountsService.make_token_uri account.id) = .ok ()
      ∧ ac.get_user_token d.role
          (AccountsService.make_token_uri account.id) = .ok tk
      ∧ a = { toServiceAccount := account, role_deleted := false,
              token := AccountsService.encode_token api tk
                account.default_cluster } := by
  rcases hcr : S.create st (AccountsService.createData d now) with ⟨r, st1⟩
  rcases r with e | account
  · simp [AccountsService.create, hcr] at h
  · rcases hg : ac.grant_user_permissions d.role
        (AccountsService.make_token_uri account.id) with e | u
    · rcases hdel : S.delete st1 account.id with ⟨rd, st2⟩
      simp only [AccountsService.create, hcr, hg, hdel] at h
      rcases rd with e' | u' <;> simp at h
    · rcases hm : ac.get_user_token d.role
          (AccountsService.make_token_uri account.id) with e | tk
      · rcases hdel : S.delete st1 account.id with ⟨rd, st2⟩
        simp only [AccountsService.create, hcr, hg, hm, hdel] at h
        rcases rd with e' | u' <;> simp at h
      · simp only [AccountsService.create, hcr, hg, hm] at h
        cases u
        simp only [Except.ok.injEq] at h
        exact ⟨account, st1, tk, rfl, hg, hm, h.symm⟩

lemma inMemCreate_ok_shape (st : InMemState) (data : ServiceAccountData)
    (a : ServiceAccount) (st' : InMemState)
    (h : InMemoryStorage.create st data = (.ok a, st')) :
    a = ServiceAccount.from_data_obj (st.idSupply st.counter) data
    ∧ st' = { st with items := insertAccount st.items a,
                      counter := st.counter + 1 }
    ∧ (InMemoryStorage.check_exists st data).1 = .ok () := by
  rcases hchk : (InMemoryStorage.check_exists st data).1 with e | u
  · simp [InMemoryStorage.create, hchk] at h
  · simp only [InMemoryStorage.create, hchk, Prod.mk.injEq] at h
    obtain ⟨h1, h2⟩ := h
    cases h1
    exact ⟨rfl, h2.symm, rfl⟩

lemma create_fail_component {σ : Type} (S : StorageOps σ) (ac : AuthClient)
    (api : String) (now : Nat) (st : σ) (d : AccountCreateData)
    (account : ServiceAccount) (st1 : σ) (e : AuthErr)
    (hcr : S.create st (AccountsService.createData d now) = (.ok account, st1))
    (hfail : ac.grant_user_permissions d.role
        (AccountsService.make_token_uri account.id) = .error e
      ∨ (ac.grant_user_permissions d.role
          (AccountsService.make_token_uri account.id) = .ok ()
        ∧ ac.get_user_token d.role
            (AccountsService.make_token_uri account.id) = .error e)) :
    (AccountsService.create S ac api now st d).1
      = (match (S.delete st1 account.id).1 with
         | .ok _ => .error (.auth e)
         | .error d' => .error d')
    ∧ (AccountsService.create S ac api now st d).2.1
      = (S.delete st1 account.id).2 := by
  rcases hdel : S.delete st1 account.id with ⟨rd, st2⟩
  rcases hfail with hg | ⟨hg, hm⟩
  · simp only [AccountsService.create, hcr, hg, hdel]
    rcases rd with e' | u' <;> simp
  · simp only [AccountsService.create, hcr, hg, hm, hdel]
    rcases rd with e' | u' <;> simp

/-! ## Claim theorems -/

/-- C2 (code_bug evaluation): deleting an account whose token permission
was already revoked — the auth gateway's revoke reports 400 "Operation has
no effect" — does NOT succeed: `AccountsService.delete` re-raises the
`ClientResponseError` (the `raise` in the handler is unconditional) and the
storage record is left in place. -/
theorem C2_delete_already_revoked_still_raises :
    AccountsService.delete inMemStorage authRevokeGone oneRecordState "id1"
      = (.error (.auth (.clientResponseError 400 "Operation has no effect")),
         oneRecordState,
         [.revoke "alice-role" "token://service_account/id1"]) := rfl

/-- C9 (code_bug evaluation): `PostgresStorage` implements no `delete`
operation at all — the storage contract's `delete` is absent from the class
body of `storage/postgres.py`. -/
theorem C9_postgres_has_no_delete : "delete" ∉ postgresStorageMethods := by
  decide

/-- C4 counterexample: with a backend whose compensating delete fails, the
error reaching the caller of `AccountsService.create` is the compensating
delete's error, not the original grant failure — refuting the claim that
the original (root-cause) error propagates. -/
theorem C4_counterexample :
    (AccountsService.create failingDeleteStorage authGrantFails "u" 0 ()
      dataFixture).1 = .error (.storageError "delete failed")
    ∧ Exc.storageError "delete failed" ≠ .auth (.other "grant failed") := by
  exact ⟨rfl, by decide⟩

/-- C4 (amended): when a post-persist step of `create` fails with original
error `e` and the compensating `Storage.delete` itself fails with `derr`,
the error that propagates to the caller is `derr` — the compensating
delete's error replaces the original (which Python keeps only as exception
context). -/
theorem C4_compensating_delete_error_propagates {σ : Type}
    (S : StorageOps σ) (ac : AuthClient) (api : String) (now : Nat)
    (st st1 st2 : σ) (d : AccountCreateData) (account : ServiceAccount)
    (e : AuthErr) (derr : Exc)
    (hcr : S.create st (AccountsService.createData d now)
      = (.ok account, st1))
    (hfail : ac.grant_user_permissions d.role
        (AccountsService.make_token_uri account.id) = .error e
      ∨ (ac.grant_user_permissions d.role
          (AccountsService.make_token_uri account.id) = .ok ()
        ∧ ac.get_user_token d.role
            (AccountsService.make_token_uri account.id) = .error e))
    (hdel : S.delete st1 account.id = (.error derr, st2)) :
    (AccountsService.create S ac api now st d).1 = .error derr := by
  have h := (create_fail_component S ac api now st d account st1 e hcr
    hfail).1
  simpa [hdel] using h

/-- C4 witness: the amended statement applied to the concrete failing
backend. -/
theorem C4_witness :
    (AccountsService.create failingDeleteStorage authGrantFails "u" 0 ()
      dataFixture).1 = .error (.storageError "delete failed") :=
  C4_compensating_delete_error_propagates failingDeleteStorage
    authGrantFails "u" 0 () () () dataFixture
    (ServiceAccount.from_data_obj "service-account-1"
      (AccountsService.createData dataFixture 0))
    (.other "grant failed") (.storageError "delete failed")
    rfl (Or.inl rfl) rfl

/-- C5 counterexample: a create call whose input carries
`role = "whatever"` (owner `"alice"`, name `"test"`) returns an account
whose role is the caller-supplied `"whatever"`, not
`"alice/service-accounts/test"` — refuting the claim that the service
computes the role. -/
theorem C5_counterexample :
    ((AccountsService.create inMemStorage okAuth "u" 0 emptyState
        dataFixture).1.toOption.map (fun a => a.role)) = some "whatever"
    ∧ "whatever" ≠ "alice/service-accounts/test" := by
  exact ⟨rfl, by decide⟩

/-- C5 (amended): `AccountsService.create` performs no role derivation at
all — the resulting account's `role` is exactly the `role` field supplied
by the caller in `AccountCreateData`. -/
theorem C5_role_comes_from_input (ac : AuthClient) (api : String)
    (now : Nat) (st : InMemState) (d : AccountCreateData)
    (a : ServiceAccountWithToken)
    (h : (AccountsService.create inMemStorage ac api now st d).1 = .ok a) :
    a.role = d.role := by
  obtain ⟨account, st1, tk, hcr, hg, hm, ha⟩ :=
    create_ok_shape inMemStorage ac api now st d a h
  obtain ⟨h1, h2, h3⟩ :=
    inMemCreate_ok_shape st (AccountsService.createData d now) account st1
      hcr
  subst ha h1
  simp [ServiceAccount.from_data_obj, AccountsService.createData]

/-- C5 witness: the amended statement at a concrete create call. -/
theorem C5_witness :
    ({ toServiceAccount := ServiceAccount.from_data_obj "service-account-1"
         (AccountsService.createData dataFixture 0),
       role_deleted := false,
       token := AccountsService.encode_token "u" "token-whatever" "c" }
      : ServiceAccountWithToken).role = dataFixture.role :=
  C5_role_comes_from_input okAuth "u" 0 emptyState dataFixture _ rfl

/-- C8: when `Storage.create` fails with `ExistsError` (duplicate non-null
`(name, owner)`), `AccountsService.create` propagates the `ExistsError`,
leaves the storage state unchanged, and performs no auth-gateway call at
all (empty call log: no grant, no mint, no principal touched). -/
theorem C8_exists_error_is_frame (ac : AuthClient) (api : String)
    (now : Nat) (st : InMemState) (d : AccountCreateData)
    (hdup : (InMemoryStorage.create st
      (AccountsService.createData d now)).1 = .error .existsError) :
    AccountsService.create inMemStorage ac api now st d
      = (.error .existsError, st, []) := by
  have h : InMemoryStorage.create st (AccountsService.createData d now)
      = (.error .existsError, st) := by
    rcases hchk : (InMemoryStorage.check_exists st
        (AccountsService.createData d now)).1 with e | u
    · have he : e = .existsError := by
        simpa [InMemoryStorage.create, hchk] using hdup
      subst he
      simp [InMemoryStorage.create, hchk]
    · simp [InMemoryStorage.create, hchk] at hdup
  simp only [AccountsService.create, inMemStorage, h]

/-- C8 witness: a create call duplicating the stored `("test", "alice")`
record fails with `ExistsError`, unchanged state, empty call log. -/
theorem C8_witness :
    AccountsService.create inMemStorage okAuth "u" 0 oneRecordState
      dataFixture = (.error .existsError, oneRecordState, []) :=
  C8_exists_error_is_frame okAuth "u" 0 oneRecordState dataFixture rfl

/-- C6 counterexample: `AccountsService.get` on an existing record performs
an auth-gateway call (`get_user`, to compute `role_deleted`) — its call log
is non-empty, refuting "performing no Auth Gateway calls". -/
theorem C6_counterexample :
    (AccountsService.get inMemStorage okAuth oneRecordState "id1").2.2
      = [.getUser "alice-role"]
    ∧ ([AuthCall.getUser "alice-role"] : List AuthCall) ≠ [] := by
  exact ⟨rfl, by decide⟩

/-- The probe in `_check_role_deleted` makes exactly one `get_user`
call. -/
lemma check_role_deleted_log (ac : AuthClient) (role : String) :
    (AccountsService.check_role_deleted ac role).2 = [.getUser role] := by
  unfold AccountsService.check_role_deleted
  rcases h : ac.get_user role with e | u
  · rcases e with ⟨s, m⟩ | t <;> simp
  · simp

/-- The probe never raises `NotExistsError` (its failures are wrapped
auth-client errors). -/
lemma check_role_deleted_not_notExists (ac : AuthClient) (role : String) :
    (AccountsService.check_role_deleted ac role).1
      ≠ .error .notExistsError := by
  unfold AccountsService.check_role_deleted
  rcases h : ac.get_user role with e | u
  · rcases e with ⟨s, m⟩ | t <;> simp
  · simp

/-- Common behaviour of the service-level `get` / `get_by_name` given the
underlying lookup result. -/
lemma service_view_spec (ac : AuthClient) (st : InMemState)
    (look : Option ServiceAccount)
    (G : Except Exc ServiceAccountWithFlag × InMemState × List AuthCall)
    (hG : G = match look with
      | none => (.error .notExistsError, st, [])
      | some a =>
        match AccountsService.check_role_deleted ac a.role with
        | (.ok rd, log) =>
          (.ok { toServiceAccount := a, role_deleted := rd }, st, log)
        | (.error e, log) => (.error e, st, log)) :
    (G.1 = .error .notExistsError ↔ look = none)
    ∧ (∀ a, look = some a → G.2.2 = [.getUser a.role]
        ∧ ∀ r, G.1 = .ok r → r.toServiceAccount = a)
    ∧ (look = none → G.2.2 = [])
    ∧ G.2.1 = st := by
  rcases look with _ | a
  · subst hG
    simp
  · have hlog := check_role_deleted_log ac a.role
    have hne := check_role_deleted_not_notExists ac a.role
    rcases hc : AccountsService.check_role_deleted ac a.role with ⟨r, log⟩
    rw [hc] at hlog hne
    rcases r with e | rd
    · subst hG
      simp only [hc]
      refine ⟨?_, ?_, ?_, ?_⟩
      · constructor
        · intro he
          exact absurd (by simpa using he) (by simpa using hne)
        · intro hx
          simp at hx
      · intro a' ha'
        simp only [Option.some.injEq] at ha'
        subst ha'
        simpa using hlog
      · intro hx
        simp at hx
      · trivial
    · subst hG
      simp only [hc]
      refine ⟨?_, ?_, ?_, ?_⟩
      · simp
      · intro a' ha'
        simp only [Option.some.injEq] at ha'
        subst ha'
        constructor
        · simpa using hlog
        · intro r hr
          simp only [Except.ok.injEq] at hr
          subst hr
          rfl
      · intro hx
        simp at hx
      · trivial

/-- Unfolding of `AccountsService.get` over the in-memory backend as a
match on the id lookup. -/
lemma service_get_unfold (ac : AuthClient) (st : InMemState) (id : String) :
    AccountsService.get inMemStorage ac st id
      = match inMemLookup st.items id with
        | none => (.error .notExistsError, st, [])
        | some a =>
          match AccountsService.check_role_deleted ac a.role with
          | (.ok rd, log) =>
            (.ok { toServiceAccount := a, role_deleted := rd }, st, log)
          | (.error e, log) => (.error e, st, log) := by
  rcases hl : inMemLookup st.items id with _ | a
  · simp [AccountsService.get, inMemStorage, InMemoryStorage.get, hl]
  · rcases hc : AccountsService.check_role_deleted ac a.role with ⟨r, log⟩
    rcases r with e | rd <;>
      simp [AccountsService.get, inMemStorage, InMemoryStorage.get, hl, hc]

/-- Unfolding of `AccountsService.get_by_name` over the in-memory backend
as a match on the name/owner lookup. -/
lemma service_get_by_name_unfold (ac : AuthClient) (st : InMemState)
    (name owner : String) :
    AccountsService.get_by_name inMemStorage ac st name owner
      = match nameLookup st.items name owner with
        | none => (.error .notExistsError, st, [])
        | some a =>
          match AccountsService.check_role_deleted ac a.role with
          | (.ok rd, log) =>
            (.ok { toServiceAccount := a, role_deleted := rd }, st, log)
          | (.error e, log) => (.error e, st, log) := by
  rcases hl : nameLookup st.items name owner with _ | a
  · simp [AccountsService.get_by_name, inMemStorage,
      InMemoryStorage.get_by_name, hl]
  · rcases hc : AccountsService.check_role_deleted ac a.role with ⟨r, log⟩
    rcases r with e | rd <;>
      simp [AccountsService.get_by_name, inMemStorage,
        InMemoryStorage.get_by_name, hl, hc]

/-- C6 (amended): `AccountsService.get` and `get_by_name` delegate the
lookup to `Storage` — they fail with `NotExistsError` exactly when the
record is absent and leave the storage state unchanged — and, when the
record exists, return the stored record's fields unchanged together with a
`role_deleted` flag computed by exactly one auth-gateway `get_user` probe
(when the record is absent, no auth-gateway call is made). -/
theorem C6_get_is_delegation_plus_probe (ac : AuthClient) (st : InMemState)
    (id name owner : String) :
    ((AccountsService.get inMemStorage ac st id).1 = .error .notExistsError
        ↔ inMemLookup st.items id = none)
    ∧ (∀ a, inMemLookup st.items id = some a →
        (AccountsService.get inMemStorage ac st id).2.2 = [.getUser a.role]
        ∧ ∀ r, (AccountsService.get inMemStorage ac st id).1 = .ok r →
            r.toServiceAccount = a)
    ∧ (inMemLookup st.items id = none →
        (AccountsService.get inMemStorage ac st id).2.2 = [])
    ∧ (AccountsService.get inMemStorage ac st id).2.1 = st
    ∧ ((AccountsService.get_by_name inMemStorage ac st name owner).1
          = .error .notExistsError ↔ nameLookup st.items name owner = none)
    ∧ (∀ a, nameLookup st.items name owner = some a →
        (AccountsService.get_by_name inMemStorage ac st name owner).2.2
          = [.getUser a.role]
        ∧ ∀ r, (AccountsService.get_by_name inMemStorage ac st name
            owner).1 = .ok r → r.toServiceAccount = a)
    ∧ (nameLookup st.items name owner = none →
        (AccountsService.get_by_name inMemStorage ac st name owner).2.2
          = [])
    ∧ (AccountsService.get_by_name inMemStorage ac st name owner).2.1
        = st := by
  obtain ⟨g1, g2, g3, g4⟩ := service_view_spec ac st
    (inMemLookup st.items id) _ (service_get_unfold ac st id)
  obtain ⟨n1, n2, n3, n4⟩ := service_view_spec ac st
    (nameLookup st.items name owner) _
    (service_get_by_name_unfold ac st name owner)
  exact ⟨g1, g2, g3, g4, n1, n2, n3, n4⟩

/-- C6 witness: the amended statement at a concrete state — present id
found with one probe, absent id reported as `NotExistsError`. -/
theorem C6_witness :
    ((AccountsService.get inMemStorage okAuth oneRecordState "id1").2.2
      = [.getUser accFixture.role])
    ∧ ((AccountsService.get inMemStorage okAuth oneRecordState
        "missing").1 = .error .notExistsError) := by
  refine ⟨(((C6_get_is_delegation_plus_probe okAuth oneRecordState "id1"
    "x" "y").2.1) accFixture rfl).1, ?_⟩
  exact ((C6_get_is_delegation_plus_probe okAuth oneRecordState "missing"
    "x" "y").1).mpr rfl

lemma find_map_replace (items : List ServiceAccount) (acc : ServiceAccount)
    (h : items.any (fun a => a.id == acc.id) = true) :
    (items.map (fun a => if a.id == acc.id then acc else a)).find?
      (fun a => a.id == acc.id) = some acc := by
  induction items with
  | nil => simp at h
  | cons b bs ih =>
    by_cases hb : b.id = acc.id
    · rw [List.map_cons, if_pos (by simpa using hb),
        List.find?_cons_of_pos _ (by simp)]
    · rw [List.map_cons, if_neg (by simpa using hb),
        List.find?_cons_of_neg _ (by simpa using hb)]
      have h' : bs.any (fun a => a.id == acc.id) = true := by
        rcases List.any_eq_true.1 h with ⟨a, ha, hpa⟩
        rcases List.mem_cons.1 ha with ha0 | hamem
        · exact absurd (by simpa using hpa) (by simpa [ha0] using hb)
        · exact List.any_eq_true.2 ⟨a, hamem, hpa⟩
      exact ih h'

lemma find_append_self (items : List ServiceAccount) (acc : ServiceAccount)
    (h : items.any (fun a => a.id == acc.id) = false) :
    (items ++ [acc]).find? (fun a => a.id == acc.id) = some acc := by
  induction items with
  | nil => simp
  | cons b bs ih =>
    simp only [List.any_cons, Bool.or_eq_false_iff] at h
    rw [List.cons_append, List.find?_cons_of_neg _ (by simp [h.1])]
    exact ih h.2

lemma insert_lookup_self (items : List ServiceAccount)
    (acc : ServiceAccount) :
    inMemLookup (insertAccount items acc) acc.id = some acc := by
  unfold insertAccount inMemLookup
  by_cases hany : items.any (fun a => a.id == acc.id) = true
  · rw [if_pos hany]
    exact find_map_replace items acc hany
  · rw [if_neg hany]
    have hf : items.any (fun a => a.id == acc.id) = false := by
      cases hx : items.any (fun a => a.id == acc.id)
      · rfl
      · exact absurd hx hany
    exact find_append_self items acc hf

lemma ids_map_replace (items : List ServiceAccount)
    (acc : ServiceAccount) :
    ((items.map (fun a => if a.id == acc.id then acc else a)).map
      (fun a => a.id)) = items.map (fun a => a.id) := by
  rw [List.map_map]
  apply List.map_congr_left
  intro a _
  by_cases h : a.id = acc.id
  · simp [Function.comp, if_pos (by simpa using h), h]
  · simp [Function.comp, if_neg (by simpa using h)]

lemma insert_ids_nodup (items : List ServiceAccount)
    (acc : ServiceAccount) (h : IdsNodup items) :
    IdsNodup (insertAccount items acc) := by
  unfold insertAccount
  by_cases hany : items.any (fun a => a.id == acc.id) = true
  · rw [if_pos hany]
    unfold IdsNodup
    rw [ids_map_replace]
    exact h
  · rw [if_neg hany]
    unfold IdsNodup
    rw [List.map_append, List.map_singleton, List.nodup_append]
    refine ⟨h, List.nodup_singleton _, ?_⟩
    intro x hx hx2
    simp only [List.mem_singleton] at hx2
    subst hx2
    obtain ⟨a, ha, hid⟩ := List.mem_map.1 hx
    exact hany (List.any_eq_true.2 ⟨a, ha, by simp [hid]⟩)

lemma erase_lookup_none (items : List ServiceAccount) (id : String)
    (h : IdsNodup items) :
    inMemLookup (items.eraseP (fun a => a.id == id)) id = none := by
  induction items with
  | nil => simp [inMemLookup]
  | cons b bs ih =>
    simp only [IdsNodup, List.map_cons, List.nodup_cons] at h
    by_cases hb : b.id = id
    · rw [List.eraseP_cons_of_pos (by simpa using hb)]
      unfold inMemLookup
      rw [List.find?_eq_none]
      intro a ha hpa
      have haid : a.id = id := by simpa using hpa
      exact h.1 (List.mem_map.2 ⟨a, ha, by rw [haid, hb]⟩)
    · rw [List.eraseP_cons_of_neg (by simpa using hb)]
      unfold inMemLookup
      rw [List.find?_cons_of_neg _ (by simpa using hb)]
      exact ih h.2

/-- C1: when the storage create succeeded but the grant or the mint step
failed, `AccountsService.create` re-raises the original auth error and the
record persisted in step 2 is gone: `InMemoryStorage.get` on the resulting
state fails with `NotExistsError`.  (The encoding step is total: every
`try`-block failure is a grant or mint failure.) -/
theorem C1_create_compensates (ac : AuthClient) (api : String) (now : Nat)
    (st : InMemState) (d : AccountCreateData) (account : ServiceAccount)
    (st1 : InMemState) (e : AuthErr)
    (hnd : IdsNodup st.items)
    (hcr : InMemoryStorage.create st (AccountsService.createData d now)
      = (.ok account, st1))
    (hfail : ac.grant_user_permissions d.role
        (AccountsService.make_token_uri account.id) = .error e
      ∨ (ac.grant_user_permissions d.role
          (AccountsService.make_token_uri account.id) = .ok ()
        ∧ ac.get_user_token d.role
            (AccountsService.make_token_uri account.id) = .error e)) :
    (AccountsService.create inMemStorage ac api now st d).1
      = .error (.auth e)
    ∧ (InMemoryStorage.get
        (AccountsService.create inMemStorage ac api now st d).2.1
        account.id).1 = .error .notExistsError := by
  obtain ⟨h1, h2, h3⟩ := inMemCreate_ok_shape st
    (AccountsService.createData d now) account st1 hcr
  have hins : st1.items = insertAccount st.items account := by rw [h2]
  have hlook : inMemLookup st1.items account.id = some account := by
    rw [hins]
    exact insert_lookup_self st.items account
  have hnd1 : IdsNodup st1.items := by
    rw [hins]
    exact insert_ids_nodup st.items account hnd
  have hmem : account ∈ st1.items :=
    List.mem_of_find?_eq_some (by simpa [inMemLookup] using hlook)
  have hany : st1.items.any (fun a => a.id == account.id) = true :=
    List.any_eq_true.2 ⟨account, hmem, by simp⟩
  have hdel : InMemoryStorage.delete st1 account.id
      = (.ok (), { st1 with
          items := st1.items.eraseP (fun a => a.id == account.id) }) := by
    unfold InMemoryStorage.delete
    rw [if_pos hany]
  have hC := create_fail_component inMemStorage ac api now st d account st1
    e hcr hfail
  constructor
  · have h1' := hC.1
    rw [show StorageOps.delete inMemStorage = InMemoryStorage.delete from
      rfl, hdel] at h1'
    simpa using h1'
  · have h2' := hC.2
    rw [show StorageOps.delete inMemStorage = InMemoryStorage.delete from
      rfl, hdel] at h2'
    rw [h2']
    have hnone := erase_lookup_none st1.items account.id hnd1
    simp [InMemoryStorage.get, hnone]


/-- C1 witness: concrete grant failure on an empty store — the error
propagates and the freshly generated id is not retrievable. -/
theorem C1_witness :
    (AccountsService.create inMemStorage authGrantFails "u" 0 emptyState
      dataFixture).1 = .error (.auth (.other "grant failed"))
    ∧ (InMemoryStorage.get
        (AccountsService.create inMemStorage authGrantFails "u" 0
          emptyState dataFixture).2.1
        "service-account-1").1 = .error .notExistsError :=
  C1_create_compensates authGrantFails "u" 0 emptyState dataFixture _ _ _
    (by simp [IdsNodup, emptyState]) rfl (Or.inl rfl)

lemma countP_map_replace_le (items : List ServiceAccount)
    (acc : ServiceAccount) (p : ServiceAccount → Bool)
    (hp : p acc = false) :
    (items.map (fun a => if a.id == acc.id then acc else a)).countP p
      ≤ items.countP p := by
  induction items with
  | nil => simp
  | cons b bs ih =>
    by_cases hb : b.id = acc.id
    · have hif : (if b.id == acc.id then acc else b) = acc :=
        if_pos (by simpa using hb)
      have h0 : (if p acc = true then 1 else 0) = 0 := by simp [hp]
      rw [List.map_cons, hif, List.countP_cons, List.countP_cons, h0]
      omega
    · have hif : (if b.id == acc.id then acc else b) = b :=
        if_neg (by simpa using hb)
      rw [List.map_cons, hif, List.countP_cons, List.countP_cons]
      omega

lemma countP_map_replace_of_all_false (items : List ServiceAccount)
    (acc : ServiceAccount) (p : ServiceAccount → Bool)
    (hnd : IdsNodup items) (hall : ∀ a ∈ items, p a = false) :
    (items.map (fun a => if a.id == acc.id then acc else a)).countP p
      ≤ 1 := by
  induction items with
  | nil => simp
  | cons b bs ih =>
    simp only [IdsNodup, List.map_cons, List.nodup_cons] at hnd
    by_cases hb : b.id = acc.id
    · have hif : (if b.id == acc.id then acc else b) = acc :=
        if_pos (by simpa using hb)
      rw [List.map_cons, hif, List.countP_cons]
      have hmap : bs.map (fun a => if a.id == acc.id then acc else a)
          = bs := by
        have hfg : ∀ a ∈ bs, (if a.id == acc.id then acc else a)
            = id a := by
          intro a ha
          have hane : a.id ≠ acc.id := by
            intro hcontra
            exact hnd.1 (List.mem_map.2 ⟨a, ha, by rw [hcontra, hb]⟩)
          simp [if_neg (by simpa using hane)]
        rw [List.map_congr_left hfg, List.map_id]
      rw [hmap]
      have hz : bs.countP p = 0 := by
        rw [List.countP_eq_zero]
        intro a ha
        simp [hall a (List.mem_cons_of_mem b ha)]
      rw [hz]
      rcases hpa : p acc <;> simp [hpa]
    · have hif : (if b.id == acc.id then acc else b) = b :=
        if_neg (by simpa using hb)
      have h0 : (if p b = true then 1 else 0) = 0 := by
        simp [hall b (List.mem_cons_self b bs)]
      rw [List.map_cons, hif, List.countP_cons, h0]
      have := ih hnd.2 (fun a ha => hall a (List.mem_cons_of_mem b ha))
      omega

lemma insert_countPair_le (items : List ServiceAccount)
    (acc : ServiceAccount) (n o : String) (hnd : IdsNodup items)
    (hu : countPair items n o ≤ 1)
    (hok : acc.name = some n ∧ acc.owner = o → countPair items n o = 0) :
    countPair (insertAccount items acc) n o ≤ 1 := by
  by_cases hacc : acc.name = some n ∧ acc.owner = o
  · have hz := hok hacc
    unfold insertAccount
    by_cases hany : items.any (fun a => a.id == acc.id) = true
    · rw [if_pos hany]
      unfold countPair at hz ⊢
      apply countP_map_replace_of_all_false items acc _ hnd
      intro a ha
      have hnota := List.countP_eq_zero.1 hz a ha
      cases hpa : (a.name == some n && a.owner == o)
      · rfl
      · exact absurd hpa hnota
    · rw [if_neg hany]
      unfold countPair at hz ⊢
      rw [List.countP_append, hz]
      cases hpa : (acc.name == some n && acc.owner == o) <;>
        simp [List.countP_cons, hpa]
  · have hpacc : (acc.name == some n && acc.owner == o) = false := by
      cases hpx : (acc.name == some n && acc.owner == o)
      · rfl
      · exfalso
        apply hacc
        rw [Bool.and_eq_true] at hpx
        exact ⟨by simpa using hpx.1, by simpa using hpx.2⟩
    unfold insertAccount
    by_cases hany : items.any (fun a => a.id == acc.id) = true
    · rw [if_pos hany]
      exact le_trans (countP_map_replace_le items acc _ hpacc) hu
    · rw [if_neg hany]
      unfold countPair at hu ⊢
      rw [List.countP_append]
      have h1 : List.countP (fun a => a.name == some n && a.owner == o)
          [acc] = 0 := by
        simp [List.countP_cons, hpacc]
      rw [h1]
      omega

lemma create_preserves_inv (st : InMemState) (d : ServiceAccountData)
    (h : IdsNodup st.items ∧ UniqueNames st.items) :
    IdsNodup (InMemoryStorage.create st d).2.items
    ∧ UniqueNames (InMemoryStorage.create st d).2.items := by
  rcases hchk : (InMemoryStorage.check_exists st d).1 with e | u
  · unfold InMemoryStorage.create
    rw [hchk]
    exact h
  · unfold InMemoryStorage.create
    rw [hchk]
    refine ⟨insert_ids_nodup _ _ h.1, ?_⟩
    intro n o
    apply insert_countPair_le _ _ n o h.1 (h.2 n o)
    rintro ⟨hn, ho⟩
    have hdname : d.name = some n := hn
    have hdo : d.owner = o := ho
    subst hdo
    have hlk : nameLookup st.items n d.owner = none := by
      rcases hl : nameLookup st.items n d.owner with _ | b
      · rfl
      · exfalso
        unfold InMemoryStorage.check_exists at hchk
        simp [hdname, hl] at hchk
    unfold countPair
    rw [List.countP_eq_zero]
    intro a ha
    exact List.find?_eq_none.1 hlk a ha

lemma delete_preserves_inv (st : InMemState) (id : String)
    (h : IdsNodup st.items ∧ UniqueNames st.items) :
    IdsNodup (InMemoryStorage.delete st id).2.items
    ∧ UniqueNames (InMemoryStorage.delete st id).2.items := by
  unfold InMemoryStorage.delete
  by_cases hany : st.items.any (fun a => a.id == id) = true
  · rw [if_pos hany]
    constructor
    · have hs : List.Sublist
          ((List.eraseP (fun a => a.id == id) st.items).map
            (fun a => a.id))
          (st.items.map (fun a => a.id)) :=
        List.Sublist.map _ (List.eraseP_sublist _)
      exact hs.nodup h.1
    · intro n o
      exact le_trans (List.Sublist.countP_le _ (List.eraseP_sublist _))
        (h.2 n o)
  · rw [if_neg hany]
    exact h

lemma reachable_inv (st : InMemState) (h : Reachable st) :
    IdsNodup st.items ∧ UniqueNames st.items := by
  induction h with
  | init idSupply =>
    exact ⟨List.nodup_nil, fun n o => by simp [countPair]⟩
  | step_create st' d hr ih => exact create_preserves_inv st' d ih
  | step_delete st' id hr ih => exact delete_preserves_inv st' id ih

/-- C7: in every state reachable by any sequence of create/delete
operations, at most one live record carries a given non-null
`(name, owner)` pair; a create that would duplicate such a pair fails with
`ExistsError` and leaves the state unchanged; and a create with a null
name is never rejected with `ExistsError` (null-named records may coexist
in any number). -/
theorem C7_unique_nonnull_pairs :
    (∀ st, Reachable st → ∀ n o, countPair st.items n o ≤ 1)
    ∧ (∀ st d n, d.name = some n →
        (∃ a ∈ st.items, a.name = some n ∧ a.owner = d.owner) →
        InMemoryStorage.create st d = (.error .existsError, st))
    ∧ (∀ st d, d.name = none →
        (InMemoryStorage.create st d).1 ≠ .error .existsError) := by
  refine ⟨fun st h n o => (reachable_inv st h).2 n o, ?_, ?_⟩
  · rintro st d n hn ⟨a, ha, han, hao⟩
    rcases hl : nameLookup st.items n d.owner with _ | b
    · exfalso
      have := List.find?_eq_none.1 hl a ha
      apply this
      rw [Bool.and_eq_true]
      exact ⟨by simpa using han, by simpa using hao⟩
    · unfold InMemoryStorage.create InMemoryStorage.check_exists
      simp [hn, hl]
  · intro st d hd hcontra
    unfold InMemoryStorage.create InMemoryStorage.check_exists at hcontra
    simp [hd] at hcontra

/-- C7 witness: the invariant at the (reachable) empty state, the
`ExistsError` rejection at a concrete duplicate create, and acceptance of a
concrete null-named create. -/
theorem C7_witness :
    countPair ([] : List ServiceAccount) "n" "o" ≤ 1
    ∧ InMemoryStorage.create oneRecordState
        (AccountsService.createData dataFixture 0)
        = (.error .existsError, oneRecordState)
    ∧ (InMemoryStorage.create emptyState
        { name := none, owner := "alice", role := "r",
          default_cluster := "c", created_at := 0 }).1
        ≠ .error .existsError := by
  refine ⟨?_, ?_, ?_⟩
  · exact C7_unique_nonnull_pairs.1 ⟨[], fun _ => "x", 0⟩
      (Reachable.init (fun _ => "x")) "n" "o"
  · exact C7_unique_nonnull_pairs.2.1 oneRecordState
      (AccountsService.createData dataFixture 0) "test" rfl
      ⟨accFixture, by simp [oneRecordState], rfl, rfl⟩
  · exact C7_unique_nonnull_pairs.2.2 emptyState
      { name := none, owner := "alice", role := "r",
        default_cluster := "c", created_at := 0 } rfl

lemma splitOnDot_ne_nil (cs : List Char) : splitOnDot cs ≠ [] := by
  cases cs with
  | nil => simp [splitOnDot]
  | cons c rest =>
    unfold splitOnDot
    by_cases h : c = '.'
    · simp [h]
    · rw [if_neg h]
      rcases splitOnDot rest with _ | ⟨s, ss⟩ <;> simp

lemma splitOnDot_dot (rest : List Char) :
    splitOnDot ('.' :: rest) = [] :: splitOnDot rest := by
  simp [splitOnDot]

lemma splitOnDot_cons (c : Char) (rest : List Char) (hc : c ≠ '.')
    (h : List Char) (t : List (List Char))
    (hsp : splitOnDot rest = h :: t) :
    splitOnDot (c :: rest) = (c :: h) :: t := by
  unfold splitOnDot
  rw [if_neg hc, hsp]

lemma getLastD_alnum (h : List Char) (c : Char)
    (hc : isLowerAlnum c = true) :
    isLowerAlnum (h.getLastD c) = isLowerAlnum (h.getLastD 'a') := by
  cases h with
  | nil =>
    show isLowerAlnum c = isLowerAlnum 'a'
    rw [hc]
    decide
  | cons x xs =>
    rw [List.getLastD_cons, List.getLastD_cons]

lemma nameDFA_spec (cs : List Char) :
    ((cs.foldl nameStep .segStart == .seenAlnum)
      = (splitOnDot cs).all segOk)
    ∧ ((cs.foldl nameStep .seenAlnum == .seenAlnum)
      = (tailA ((splitOnDot cs).headD [])
          && ((splitOnDot cs).tail).all segOk))
    ∧ ((cs.foldl nameStep .seenHyphen == .seenAlnum)
      = (tailH ((splitOnDot cs).headD [])
          && ((splitOnDot cs).tail).all segOk))
    ∧ ((cs.foldl nameStep .reject == .seenAlnum) = false) := by
  induction cs with
  | nil => refine ⟨by decide, by decide, by decide, by decide⟩
  | cons c rest ih =>
    obtain ⟨ih1, ih2, ih3, ih4⟩ := ih
    by_cases hdot : c = '.'
    · subst hdot
      rw [splitOnDot_dot]
      refine ⟨?_, ?_, ?_, ?_⟩
      · rw [List.foldl_cons,
          show nameStep .segStart '.' = .reject from rfl, ih4,
          List.all_cons, show segOk ([] : List Char) = false from by
            decide]
        simp
      · rw [List.foldl_cons,
          show nameStep .seenAlnum '.' = .segStart from rfl, ih1,
          List.headD_cons, List.tail_cons,
          show tailA ([] : List Char) = true from by decide]
        simp
      · rw [List.foldl_cons,
          show nameStep .seenHyphen '.' = .reject from rfl, ih4,
          List.headD_cons, List.tail_cons,
          show tailH ([] : List Char) = false from by decide]
        simp
      · rw [List.foldl_cons,
          show nameStep .reject '.' = .reject from rfl, ih4]
    · rcases hsp : splitOnDot rest with _ | ⟨h, t⟩
      · exact absurd hsp (splitOnDot_ne_nil rest)
      rw [hsp] at ih2 ih3
      rw [List.headD_cons, List.tail_cons] at ih2 ih3
      rw [splitOnDot_cons c rest hdot h t hsp]
      by_cases hhyp : c = '-'
      · subst hhyp
        have hseg : segOk ('-' :: h) = false := by
          unfold segOk
          rw [List.headD_cons,
            show isLowerAlnum '-' = false from by decide]
          simp
        have htA : tailA ('-' :: h) = tailH h := by
          unfold tailA tailH
          rw [List.all_cons, List.getLastD_cons,
            show classChar '-' = true from by decide]
          simp
        have htH : tailH ('-' :: h) = tailH h := by
          unfold tailH
          conv_lhs => rw [List.all_cons, List.getLastD_cons]
          rw [show classChar '-' = true from by decide]
          simp
        refine ⟨?_, ?_, ?_, ?_⟩
        · rw [List.foldl_cons,
            show nameStep .segStart '-' = .reject from rfl, ih4,
            List.all_cons, hseg]
          simp
        · rw [List.foldl_cons,
            show nameStep .seenAlnum '-' = .seenHyphen from rfl, ih3,
            List.headD_cons, List.tail_cons, htA]
        · rw [List.foldl_cons,
            show nameStep .seenHyphen '-' = .seenHyphen from rfl, ih3,
            List.headD_cons, List.tail_cons, htH]
        · rw [List.foldl_cons,
            show nameStep .reject '-' = .reject from rfl, ih4]
      · by_cases hA : isLowerAlnum c = true
        · have hstep1 : nameStep .segStart c = .seenAlnum := by
            simp [nameStep, hA]
          have hstep2 : nameStep .seenAlnum c = .seenAlnum := by
            simp [nameStep, hA]
          have hstep3 : nameStep .seenHyphen c = .seenAlnum := by
            simp [nameStep, hA]
          have hclassc : classChar c = true := by
            simp [classChar, hA]
          have htailA : tailA (c :: h) = tailA h := by
            unfold tailA
            conv_lhs => rw [List.all_cons, List.getLastD_cons]
            rw [hclassc, getLastD_alnum h c hA]
            simp
          have hsegOk : segOk (c :: h) = tailA h := by
            unfold segOk tailA
            rw [List.headD_cons, List.all_cons, List.getLastD_cons, hA,
              hclassc, getLastD_alnum h c hA]
            simp
          have htailH : tailH (c :: h) = tailA h := by
            unfold tailH tailA
            rw [List.all_cons, List.getLastD_cons, hclassc,
              getLastD_alnum h c hA]
            simp
          refine ⟨?_, ?_, ?_, ?_⟩
          · rw [List.foldl_cons, hstep1, ih2, List.all_cons, hsegOk]
          · rw [List.foldl_cons, hstep2, ih2, List.headD_cons,
              List.tail_cons, htailA]
          · rw [List.foldl_cons, hstep3, ih2, List.headD_cons,
              List.tail_cons, htailH]
          · rw [List.foldl_cons,
              show nameStep .reject c = .reject from rfl, ih4]
        · have hA' : isLowerAlnum c = false := by
            cases hx : isLowerAlnum c
            · rfl
            · exact absurd hx hA
          have hstep1 : nameStep .segStart c = .reject := by
            simp [nameStep, hA]
          have hstep2 : nameStep .seenAlnum c = .reject := by
            simp [nameStep, hA, hhyp, hdot]
          have hstep3 : nameStep .seenHyphen c = .reject := by
            simp [nameStep, hA, hhyp]
          have hclassc : classChar c = false := by
            simp [classChar, hA', hhyp]
          have hseg : segOk (c :: h) = false := by
            unfold segOk
            rw [List.headD_cons, hA']
            simp
          have htailA : tailA (c :: h) = false := by
            unfold tailA
            rw [List.all_cons, hclassc]
            simp
          have htailH : tailH (c :: h) = false := by
            unfold tailH
            rw [List.all_cons, hclassc]
            simp
          refine ⟨?_, ?_, ?_, ?_⟩
          · rw [List.foldl_cons, hstep1, ih4, List.all_cons, hseg]
            simp
          · rw [List.foldl_cons, hstep2, ih4, List.headD_cons,
              List.tail_cons, htailA]
            simp
          · rw [List.foldl_cons, hstep3, ih4, List.headD_cons,
              List.tail_cons, htailH]
            simp
          · rw [List.foldl_cons,
              show nameStep .reject c = .reject from rfl, ih4]

/-- C10 counterexample: the code's `NAME_PATTERN` accepts `"a--b"`
(consecutive internal hyphens), which the claimed per-segment pattern
`[a-z0-9](-[a-z0-9]+)*` rejects — refuting the claimed `iff`. -/
theorem C10_counterexample :
    validate_name "a--b" = .ok () ∧ specNameMatch "a--b" = false :=
  ⟨rfl, rfl⟩

/-- C10 (amended): `validate_name` accepts a string exactly when it splits
on `'.'` into segments that are each nonempty, drawn from `[-a-z0-9]`, and
begin and end with a lowercase alphanumeric character (consecutive internal
hyphens allowed — per-segment pattern `[a-z0-9]([-a-z0-9]*[a-z0-9])?`);
every other string is rejected with the validation error. -/
theorem C10_validate_name_characterization (s : String) :
    validate_name s = (if (splitOnDot s.data).all segOk then .ok ()
      else .error "Invalid service account name") := by
  unfold validate_name nameFullmatch
  rw [(nameDFA_spec s.data).1]

lemma base64Chunks_length (bs : List Nat) :
    (base64Chunks bs).length = 4 * ((bs.length + 2) / 3) := by
  induction bs using base64Chunks.induct with
  | case1 => simp [base64Chunks]
  | case2 b0 => simp [base64Chunks]
  | case3 b0 b1 => simp [base64Chunks]
  | case4 b0 b1 b2 rest ih =>
    show (String.mk _ ++ base64Chunks rest).length = _
    rw [String.length_append, String.length_mk, ih]
    simp only [List.length_cons, List.length_nil]
    omega

lemma flatten_map_length_ge {α β : Type} (f : α → List β)
    (hf : ∀ c, 1 ≤ (f c).length) (l : List α) :
    l.length ≤ ((l.map f).flatten).length := by
  induction l with
  | nil => simp
  | cons x xs ih =>
    rw [List.map_cons, List.flatten_cons, List.length_append,
      List.length_cons]
    have := hf x
    omega

lemma utf8EncodeChar_length_pos (c : Char) :
    1 ≤ (utf8EncodeChar c).length := by
  simp only [utf8EncodeChar]
  split_ifs <;> simp

lemma jsonEscapeChar_length_pos (c : Char) :
    1 ≤ (jsonEscapeChar c).length := by
  unfold jsonEscapeChar
  split_ifs <;> simp [uEscape]

lemma utf8Bytes_length_ge (s : String) :
    s.length ≤ (utf8Bytes s).length := by
  show s.data.length ≤ ((s.data.map utf8EncodeChar).flatten).length
  exact flatten_map_length_ge utf8EncodeChar utf8EncodeChar_length_pos
    s.data

lemma jsonStr_length_ge (s : String) :
    s.length + 2 ≤ (jsonStr s).length := by
  unfold jsonStr
  simp only [String.length_append]
  have hm : (String.mk ((s.data.map jsonEscapeChar).flatten)).length
      = ((s.data.map jsonEscapeChar).flatten).length := String.length_mk _
  have h := flatten_map_length_ge jsonEscapeChar jsonEscapeChar_length_pos
    s.data
  have hs : s.length = s.data.length := rfl
  have h1 : ("\"" : String).length = 1 := rfl
  omega

lemma jsonDumpsAux_length_ge (P : List (String × String)) :
    (P.map (fun kv => kv.1.length + 6)).sum ≤ (jsonDumpsAux P).length := by
  induction P using jsonDumpsAux.induct with
  | case1 => simp [jsonDumpsAux]
  | case2 kv =>
    show _ ≤ (jsonStr kv.1 ++ ": " ++ jsonStr kv.2).length
    simp only [String.length_append]
    rw [show (": " : String).length = 2 from rfl]
    have h1 := jsonStr_length_ge kv.1
    have h2 := jsonStr_length_ge kv.2
    simp only [List.map_cons, List.map_nil, List.sum_cons, List.sum_nil]
    omega
  | case3 kv rest hne ih =>
    rcases rest with _ | ⟨kv2, rest2⟩
    · exact absurd rfl hne
    show _ ≤ (jsonStr kv.1 ++ ": " ++ jsonStr kv.2 ++ ", "
      ++ jsonDumpsAux (kv2 :: rest2)).length
    simp only [String.length_append]
    rw [show (": " : String).length = 2 from rfl,
      show (", " : String).length = 2 from rfl]
    have hk := jsonStr_length_ge kv.1
    have hv := jsonStr_length_ge kv.2
    simp only [List.map_cons, List.sum_cons] at ih ⊢
    omega

lemma jsonDumps_length_ge (P : List (String × String)) :
    (P.map (fun kv => kv.1.length + 6)).sum + 2
      ≤ (jsonDumps P).length := by
  unfold jsonDumps
  simp only [String.length_append]
  have h := jsonDumpsAux_length_ge P
  have h1 : ("\x7b" : String).length = 1 := rfl
  have h2 : ("\x7d" : String).length = 1 := rfl
  omega

lemma keys_sum_ge (P : List (String × String))
    (h : ∀ k ∈ (["token", "cluster", "url", "project_name"] :
      List String), k ∈ P.map Prod.fst) :
    51 ≤ (P.map (fun kv => kv.1.length + 6)).sum := by
  have hnd : (["token", "cluster", "url", "project_name"] :
      List String).Nodup := by decide
  have hsub := hnd.subperm h
  obtain ⟨l, hperm, hsubl⟩ := hsub
  have hsum1 : (l.map (fun k => k.length + 6)).sum
      = ((["token", "cluster", "url", "project_name"] :
          List String).map (fun k => k.length + 6)).sum :=
    (hperm.map (fun k => k.length + 6)).sum_eq
  have hsum2 : (l.map (fun k => k.length + 6)).sum
      ≤ ((P.map Prod.fst).map (fun k => k.length + 6)).sum := by
    apply List.Sublist.sum_le_sum (hsubl.map (fun k => k.length + 6))
    intro a _
    exact Nat.zero_le a
  have hval : ((["token", "cluster", "url", "project_name"] :
      List String).map (fun k => k.length + 6)).sum = 51 := by decide
  rw [List.map_map] at hsum2
  have hfun : ((fun k : String => k.length + 6) ∘ Prod.fst)
      = (fun kv : String × String => kv.1.length + 6) := rfl
  rw [hfun] at hsum2
  omega

/-- C3 counterexample: the token returned by a concrete successful create
cannot be the base64 of any serialized JSON object whose key set is
exactly `{token, cluster, url, project_name}` — its decoded payload is too
short (the four keys alone force at least 53 bytes, but the emitted JSON is
42 bytes, so the base64 lengths differ).  The service encodes only the
three keys `token`, `cluster`, `url`. -/
theorem C3_counterexample :
    ((AccountsService.create inMemStorage authMintT "u" 0 emptyState
        dataFixture).1.toOption.map ServiceAccountWithToken.token
      = some tokenC3)
    ∧ ¬ claimTokenFormat tokenC3 := by
  refine ⟨rfl, ?_⟩
  rintro ⟨P, hkeys, hT⟩
  have hmem : ∀ k ∈ (["token", "cluster", "url", "project_name"] :
      List String), k ∈ P.map Prod.fst :=
    fun k hk => (hkeys k).2 hk
  have h51 := keys_sum_ge P hmem
  have hjson := jsonDumps_length_ge P
  have hbytes := utf8Bytes_length_ge (jsonDumps P)
  have hlen : (base64encode (utf8Bytes (jsonDumps P))).length
      = 4 * (((utf8Bytes (jsonDumps P)).length + 2) / 3) :=
    base64Chunks_length _
  have htok : tokenC3.length = 56 := by decide
  rw [hT, hlen] at htok
  omega

/-- C3 (amended): every successful create returns as its token the base64
of the UTF-8 bytes of the JSON serialization of exactly the pairs
`token` (the credential minted by `get_user_token`), `cluster` (the stored
record's `default_cluster`) and `url` (the configured api base url) — the
key list is `["token", "cluster", "url"]`, with no `project_name`. -/
theorem C3_token_encoding {σ : Type} (S : StorageOps σ) (ac : AuthClient)
    (api : String) (now : Nat) (st : σ) (d : AccountCreateData)
    (a : ServiceAccountWithToken)
    (h : (AccountsService.create S ac api now st d).1 = .ok a) :
    ∃ tk, ac.get_user_token d.role (AccountsService.make_token_uri a.id)
        = .ok tk
      ∧ a.token = base64encode (utf8Bytes (jsonDumps
          (AccountsService.tokenPayload tk a.default_cluster api)))
      ∧ (AccountsService.tokenPayload tk a.default_cluster api).map
          Prod.fst = ["token", "cluster", "url"] := by
  obtain ⟨account, st1, tk, hcr, hg, hm, ha⟩ :=
    create_ok_shape S ac api now st d a h
  subst ha
  exact ⟨tk, hm, rfl, rfl⟩

/-- C3 witness: the amended statement at a concrete create call. -/
theorem C3_witness :
    ∃ tk, authMintT.get_user_token dataFixture.role
        (AccountsService.make_token_uri "service-account-1") = .ok tk
      ∧ AccountsService.encode_token "u" "t" "c"
          = base64encode (utf8Bytes (jsonDumps
              (AccountsService.tokenPayload tk "c" "u")))
      ∧ (AccountsService.tokenPayload tk "c" "u").map Prod.fst
          = ["token", "cluster", "url"] :=
  C3_token_encoding inMemStorage authMintT "u" 0 emptyState dataFixture _
    rfl
